import Mathlib

/-!
# Verification of the TechSnakeGame core logic

Shallow embedding of the game-state machine from the repository's single
source component (`TechSnakeGame`): the `moveSnake` tick function (scheduler
gating plus the snake-update algorithm), `resetGame`, the keyboard direction
handler, and the constants `GRID_SIZE` / `INITIAL_SPEED`.

Coordinates are embedded as `Int` because the source computes the candidate
head position before the wall check, so coordinates can transiently be `-1`
or `GRID_SIZE`.  `score` and `speed` are `Nat`; the only subtraction on
`speed` is `max (speed - 5) 50`, where truncated subtraction agrees with the
source's integer arithmetic.  The random food generator is modelled by
passing the freshly generated position as an explicit argument.
-/

namespace TechSnake

/-- `GRID_SIZE = 20` from the source. -/
def GRID_SIZE : Int := 20

/-- `INITIAL_SPEED = 150` from the source. -/
def INITIAL_SPEED : Nat := 150

/-- `type Position = { x: number; y: number }`. -/
structure Position where
  x : Int
  y : Int
deriving DecidableEq, Repr

instance : Inhabited Position := ⟨⟨0, 0⟩⟩

/-- `type Direction = 'UP' | 'DOWN' | 'LEFT' | 'RIGHT'`. -/
inductive Direction where
  | UP
  | DOWN
  | LEFT
  | RIGHT
deriving DecidableEq, Repr

/-- The opposite of a direction (UP↔DOWN, LEFT↔RIGHT). -/
def Direction.opposite : Direction → Direction
  | .UP => .DOWN
  | .DOWN => .UP
  | .LEFT => .RIGHT
  | .RIGHT => .LEFT

/-- The authoritative game state: the React state cells
`snake`, `food`, `direction` (committed), `nextDirection` (pending),
`gameOver`, `score`, `speed` of `TechSnakeGame`.
(The cosmetic `trailEffect` is presentation-only and omitted.) -/
structure GameState where
  snake : List Position
  food : Position
  direction : Direction
  nextDirection : Direction
  gameOver : Bool
  score : Nat
  speed : Nat
deriving DecidableEq, Repr

/-- The initial values of the state cells:
snake `[{x:10,y:10}]`, food `{x:5,y:5}`, directions `RIGHT`,
`gameOver = false`, `score = 0`, `speed = INITIAL_SPEED`. -/
def initialState : GameState :=
  { snake := [⟨10, 10⟩]
    food := ⟨5, 5⟩
    direction := .RIGHT
    nextDirection := .RIGHT
    gameOver := false
    score := 0
    speed := INITIAL_SPEED }

/-- `resetGame`: every game-state cell is reassigned to its fixed initial
value; the food is set to a fresh `generateFood()` result, modelled by the
argument `nf`.  The prior state `_s` is ignored because `resetGame` assigns
every field unconditionally. -/
def resetGame (nf : Position) (_s : GameState) : GameState :=
  { snake := [⟨10, 10⟩]
    food := nf
    direction := .RIGHT
    nextDirection := .RIGHT
    gameOver := false
    score := 0
    speed := INITIAL_SPEED }

/-- The `switch (currentDirection)` block of `moveSnake`:
offset a position one cell in a direction
(UP: y−1, DOWN: y+1, LEFT: x−1, RIGHT: x+1). -/
def offsetHead (d : Direction) (p : Position) : Position :=
  match d with
  | .UP => ⟨p.x, p.y - 1⟩
  | .DOWN => ⟨p.x, p.y + 1⟩
  | .LEFT => ⟨p.x - 1, p.y⟩
  | .RIGHT => ⟨p.x + 1, p.y⟩

/-- The candidate new head of a state: the current head
(`prevSnake[0]`) offset one cell in the pending direction
(`const currentDirection = nextDirection`). -/
def newHead (s : GameState) : Position :=
  offsetHead s.nextDirection s.snake.headI

/-- The wall test of `moveSnake`:
`head.x < 0 || head.x >= GRID_SIZE || head.y < 0 || head.y >= GRID_SIZE`. -/
def outsideGrid (p : Position) : Prop :=
  p.x < 0 ∨ GRID_SIZE ≤ p.x ∨ p.y < 0 ∨ GRID_SIZE ≤ p.y

instance (p : Position) : Decidable (outsideGrid p) := by
  unfold outsideGrid; infer_instance

/-- A position is inside the grid: both coordinates in `[0, GRID_SIZE)`. -/
def inGrid (p : Position) : Prop :=
  0 ≤ p.x ∧ p.x < GRID_SIZE ∧ 0 ≤ p.y ∧ p.y < GRID_SIZE

instance (p : Position) : Decidable (inGrid p) := by
  unfold inGrid; infer_instance

/-- One game step: the `setSnake` updater of `moveSnake` together with the
accompanying `setGameOver` / `setFood` / `setScore` / `setSpeed` /
`setDirection` calls, plus the leading `if (gameOver) return` guard.
`nf` models the `generateFood()` result used on a food collision.

Order of checks, as in the source: wall collision, then self collision
(against the full pre-move body `prevSnake.some(...)`), then food collision
(grow, score `+10`, speed `max (speed - 5) 50`, food respawn), else the
non-eating move `newSnake.pop()` (drop the last segment).  `setDirection`
runs only on the non-collision paths. -/
def stepGame (nf : Position) (s : GameState) : GameState :=
  if s.gameOver then s
  else
    let h := newHead s
    if outsideGrid h then
      { s with gameOver := true }
    else if h ∈ s.snake then
      { s with gameOver := true }
    else if h = s.food then
      { s with snake := h :: s.snake
               food := nf
               score := s.score + 10
               speed := max (s.speed - 5) 50
               direction := s.nextDirection }
    else
      { s with snake := (h :: s.snake).dropLast
               direction := s.nextDirection }

/-- The `handleKeyDown` switch: a requested direction `r` overwrites the
pending direction only if the committed direction is not the opposite of
`r`; otherwise the request is silently dropped. -/
def requestDirection (r : Direction) (s : GameState) : GameState :=
  match r with
  | .UP => if s.direction ≠ .DOWN then { s with nextDirection := .UP } else s
  | .DOWN => if s.direction ≠ .UP then { s with nextDirection := .DOWN } else s
  | .LEFT => if s.direction ≠ .RIGHT then { s with nextDirection := .LEFT } else s
  | .RIGHT => if s.direction ≠ .LEFT then { s with nextDirection := .RIGHT } else s

/-- One frame signal of the scheduler part of `moveSnake`.
`lt` is `lastUpdateTime.current` (the source initialises it to `0` and its
"unset" test is JavaScript falsiness, `!lastUpdateTime.current`, i.e.
`lt = 0`).  Returns the game state, the new `lastUpdateTime`, and whether a
step was taken this frame.  The `if (gameOver) return` guard precedes all
scheduler bookkeeping, as in the source. -/
def frame (nf : Position) (timestamp : Int) (s : GameState) (lt : Int) :
    GameState × Int × Bool :=
  if s.gameOver then (s, lt, false)
  else
    let lt1 := if lt = 0 then timestamp else lt
    if timestamp - lt1 < (s.speed : Int) then (s, lt1, false)
    else (stepGame nf s, timestamp, true)

/-- Run `frame` over a list of frame timestamps, collecting the step flags
(head-first list of `(timestamp, stepped)` is not needed; we return the
final state pair and the list of step flags in order). -/
def runFrames (nf : Position) (ts : List Int) (s : GameState) (lt : Int) :
    GameState × Int × List Bool :=
  match ts with
  | [] => (s, lt, [])
  | t :: rest =>
      let r := frame nf t s lt
      let rec' := runFrames nf rest r.1 r.2.1
      (rec'.1, rec'.2.1, r.2.2 :: rec'.2.2)

/-- States reachable from the fixed initial configuration by any sequence of
`step()` and `reset()` calls (direction requests are also allowed, which only
enlarges the reachable set).  Freshly generated food positions are constrained
to the grid, the codomain of `generateFood()`
(`Math.floor(Math.random() * GRID_SIZE)` on each axis). -/
inductive Reachable : GameState → Prop where
  | init : Reachable initialState
  | step (nf : Position) {s : GameState} :
      inGrid nf → Reachable s → Reachable (stepGame nf s)
  | reset (nf : Position) {s : GameState} :
      inGrid nf → Reachable s → Reachable (resetGame nf s)
  | request (r : Direction) {s : GameState} :
      Reachable s → Reachable (requestDirection r s)

/-- The snake-shape invariant of C1: the body is non-empty and every
segment lies inside the grid. -/
def snakeInv (s : GameState) : Prop :=
  s.snake ≠ [] ∧ ∀ p ∈ s.snake, inGrid p

/-- The score/speed invariant of C10: the score counts eaten food
(10 points per segment beyond the first) and the speed is the initial
interval lowered by 5 per food, floored at 50. -/
def scoreInv (s : GameState) : Prop :=
  s.score = 10 * (s.snake.length - 1) ∧ s.speed = max (150 - s.score / 2) 50

/-- Iterated `step()` calls, one per listed fresh-food value. -/
def stepMany (nfs : List Position) (s : GameState) : GameState :=
  nfs.foldl (fun g nf => stepGame nf g) s

/-- A running state about to hit the right wall: head at `(19,10)` moving
RIGHT (the spec's wall-collision scenario). -/
def wallExample : GameState :=
  { snake := [⟨19, 10⟩], food := ⟨5, 5⟩, direction := .RIGHT,
    nextDirection := .RIGHT, gameOver := false, score := 0, speed := 150 }

/-- A terminal state, used to exercise the terminal no-op law. -/
def terminalExample : GameState :=
  { snake := [⟨10, 10⟩], food := ⟨5, 5⟩, direction := .RIGHT,
    nextDirection := .RIGHT, gameOver := true, score := 20, speed := 140 }

/-- The spec's food-eaten scenario: head at `(4,5)`, food at `(5,5)`,
committed direction RIGHT, score 10. -/
def eatExample : GameState :=
  { snake := [⟨4, 5⟩], food := ⟨5, 5⟩, direction := .RIGHT,
    nextDirection := .RIGHT, gameOver := false, score := 10, speed := 145 }

/-- The spec's self-collision scenario: a length-4 snake occupying
`(5,5),(6,5),(6,6),(5,6)` whose head is about to move onto `(6,5)`. -/
def selfExample : GameState :=
  { snake := [⟨5, 5⟩, ⟨6, 5⟩, ⟨6, 6⟩, ⟨5, 6⟩], food := ⟨0, 0⟩,
    direction := .RIGHT, nextDirection := .RIGHT, gameOver := false,
    score := 30, speed := 135 }

/-- A running state whose snake is bent: head at `(5,5)` with the tail
directly below at `(5,6)`, committed direction RIGHT. -/
def bentExample : GameState :=
  { snake := [⟨5, 5⟩, ⟨5, 6⟩], food := ⟨0, 0⟩, direction := .RIGHT,
    nextDirection := .RIGHT, gameOver := false, score := 10, speed := 145 }

/-- A running state whose committed direction is RIGHT while an accepted
earlier request left the pending direction UP. -/
def pendingUpExample : GameState :=
  { snake := [⟨10, 10⟩], food := ⟨0, 0⟩, direction := .RIGHT,
    nextDirection := .UP, gameOver := false, score := 0, speed := 150 }

/-- `inGrid` is the negation of the source's wall test. -/
lemma not_outsideGrid_iff (p : Position) : ¬ outsideGrid p ↔ inGrid p := by
  unfold outsideGrid inGrid
  omega

lemma snakeInv_initial : snakeInv initialState := by
  constructor
  · decide
  · intro p hp
    simp only [initialState, List.mem_singleton] at hp
    subst hp
    decide

lemma scoreInv_initial : scoreInv initialState := by
  constructor <;> decide

/-- Both invariants are preserved by one game step. -/
lemma inv_stepGame (nf : Position) (s : GameState)
    (h1 : snakeInv s) (h2 : scoreInv s) :
    snakeInv (stepGame nf s) ∧ scoreInv (stepGame nf s) := by
  obtain ⟨hne, hmem⟩ := h1
  obtain ⟨hscore, hspeed⟩ := h2
  have hlen : 1 ≤ s.snake.length := List.length_pos.mpr hne
  simp only [stepGame]
  split_ifs with hgo hout hself hfood
  · exact ⟨⟨hne, hmem⟩, hscore, hspeed⟩
  · exact ⟨⟨hne, hmem⟩, hscore, hspeed⟩
  · exact ⟨⟨hne, hmem⟩, hscore, hspeed⟩
  · -- food branch: the in-grid new head is prepended
    have hin : inGrid (newHead s) := (not_outsideGrid_iff _).mp hout
    refine ⟨⟨by simp, ?_⟩, ?_, ?_⟩
    · intro p hp
      rcases List.mem_cons.mp hp with h | h
      · subst h; exact hin
      · exact hmem p h
    · show s.score + 10 = 10 * ((newHead s :: s.snake).length - 1)
      simp only [List.length_cons]
      omega
    · show max (s.speed - 5) 50 = max (150 - (s.score + 10) / 2) 50
      rw [hspeed, hscore]
      omega
  · -- non-eating branch: new head prepended, tail dropped
    have hin : inGrid (newHead s) := (not_outsideGrid_iff _).mp hout
    refine ⟨⟨?_, ?_⟩, ?_, ?_⟩
    · show (newHead s :: s.snake).dropLast ≠ []
      refine List.length_pos.mp ?_
      simp only [List.length_dropLast, List.length_cons]
      omega
    · intro p hp
      rcases List.mem_cons.mp (List.mem_of_mem_dropLast hp) with h | h
      · subst h; exact hin
      · exact hmem p h
    · show s.score = 10 * ((newHead s :: s.snake).dropLast.length - 1)
      simp only [List.length_dropLast, List.length_cons]
      omega
    · exact hspeed

/-- `resetGame` establishes both invariants. -/
lemma inv_resetGame (nf : Position) (s : GameState) :
    snakeInv (resetGame nf s) ∧ scoreInv (resetGame nf s) := by
  refine ⟨⟨?_, ?_⟩, ?_, ?_⟩
  · show ([⟨10, 10⟩] : List Position) ≠ []
    decide
  · intro p hp
    simp only [resetGame, List.mem_singleton] at hp
    subst hp
    decide
  · rfl
  · show (INITIAL_SPEED : Nat) = max (150 - 0 / 2) 50
    decide

/-- `requestDirection` never changes the snake. -/
lemma requestDirection_snake (r : Direction) (s : GameState) :
    (requestDirection r s).snake = s.snake := by
  cases r <;> simp only [requestDirection] <;> split <;> rfl

/-- `requestDirection` never changes the score. -/
lemma requestDirection_score (r : Direction) (s : GameState) :
    (requestDirection r s).score = s.score := by
  cases r <;> simp only [requestDirection] <;> split <;> rfl

/-- `requestDirection` never changes the speed. -/
lemma requestDirection_speed (r : Direction) (s : GameState) :
    (requestDirection r s).speed = s.speed := by
  cases r <;> simp only [requestDirection] <;> split <;> rfl

/-- `requestDirection` touches only `nextDirection`, so it preserves both
invariants. -/
lemma inv_requestDirection (r : Direction) (s : GameState)
    (h1 : snakeInv s) (h2 : scoreInv s) :
    snakeInv (requestDirection r s) ∧ scoreInv (requestDirection r s) := by
  constructor
  · unfold snakeInv at *
    rw [requestDirection_snake]
    exact h1
  · unfold scoreInv at *
    rw [requestDirection_score, requestDirection_snake, requestDirection_speed]
    exact h2

/-- Every reachable state satisfies both invariants. -/
lemma reachable_inv (s : GameState) (h : Reachable s) :
    snakeInv s ∧ scoreInv s := by
  induction h with
  | init => exact ⟨snakeInv_initial, scoreInv_initial⟩
  | step nf _ _ ih => exact inv_stepGame nf _ ih.1 ih.2
  | reset nf _ _ _ => exact inv_resetGame nf _
  | request r _ ih => exact inv_requestDirection r _ ih.1 ih.2

/-- C1: In every state reachable from the initial state by any sequence of
`step()` and `reset()` calls, the snake body is a non-empty list
(length ≥ 1) and every segment's x and y coordinates lie in
`[0, GRID_SIZE)`, i.e. in `[0, 20)`. -/
theorem reachable_snake_nonempty_in_grid (s : GameState) (h : Reachable s) :
    1 ≤ s.snake.length ∧
    ∀ p ∈ s.snake, 0 ≤ p.x ∧ p.x < GRID_SIZE ∧ 0 ≤ p.y ∧ p.y < GRID_SIZE := by
  obtain ⟨⟨hne, hmem⟩, _⟩ := reachable_inv s h
  exact ⟨List.length_pos.mpr hne, fun p hp => hmem p hp⟩

/-- Witness for C1 at the state reached by one `step()` from the initial
configuration. -/
theorem reachable_snake_nonempty_in_grid_witness :
    1 ≤ (stepGame ⟨3, 3⟩ initialState).snake.length ∧
    ∀ p ∈ (stepGame ⟨3, 3⟩ initialState).snake,
      0 ≤ p.x ∧ p.x < GRID_SIZE ∧ 0 ≤ p.y ∧ p.y < GRID_SIZE :=
  reachable_snake_nonempty_in_grid _
    (Reachable.step ⟨3, 3⟩ (by decide) Reachable.init)

/-- C10: In every reachable state, `score = 10 * (snake length - 1)` and
`speed = max (150 - score / 2) 50`; in particular the score is a multiple
of 10 and the tick interval lies in `[50, 150]`. -/
theorem reachable_score_speed_law (s : GameState) (h : Reachable s) :
    s.score = 10 * (s.snake.length - 1) ∧
    s.speed = max (150 - s.score / 2) 50 ∧
    (∃ k, s.score = 10 * k) ∧
    50 ≤ s.speed ∧ s.speed ≤ 150 := by
  obtain ⟨_, hscore, hspeed⟩ := reachable_inv s h
  refine ⟨hscore, hspeed, ⟨s.snake.length - 1, hscore⟩, ?_, ?_⟩ <;> omega

/-- Witness for C10 at a reachable state that has eaten one food item:
reset with food at `(11,10)`, then one `step()` moving RIGHT eats it. -/
theorem reachable_score_speed_law_witness :
    (stepGame ⟨2, 2⟩ (resetGame ⟨11, 10⟩ initialState)).score =
      10 * ((stepGame ⟨2, 2⟩ (resetGame ⟨11, 10⟩ initialState)).snake.length - 1) ∧
    (stepGame ⟨2, 2⟩ (resetGame ⟨11, 10⟩ initialState)).speed =
      max (150 - (stepGame ⟨2, 2⟩ (resetGame ⟨11, 10⟩ initialState)).score / 2) 50 ∧
    (∃ k, (stepGame ⟨2, 2⟩ (resetGame ⟨11, 10⟩ initialState)).score = 10 * k) ∧
    50 ≤ (stepGame ⟨2, 2⟩ (resetGame ⟨11, 10⟩ initialState)).speed ∧
    (stepGame ⟨2, 2⟩ (resetGame ⟨11, 10⟩ initialState)).speed ≤ 150 :=
  reachable_score_speed_law _
    (Reachable.step ⟨2, 2⟩ (by decide)
      (Reachable.reset ⟨11, 10⟩ (by decide) Reachable.init))

/-- C5: In a non-terminal state whose candidate new head (old head offset
one cell in the committed direction) falls outside `[0, GRID_SIZE)` on
either axis, `step()` sets the terminal flag and changes nothing else:
snake, food, score, tick interval, and both direction fields are
untouched. -/
theorem step_wall_collision (nf : Position) (s : GameState)
    (hgo : s.gameOver = false) (hout : outsideGrid (newHead s)) :
    stepGame nf s = { s with gameOver := true } := by
  simp only [stepGame, hgo, Bool.false_eq_true, if_false]
  rw [if_pos hout]

/-- Witness for C5: head at `(19,10)` moving RIGHT on the 20×20 grid. -/
theorem step_wall_collision_witness :
    stepGame ⟨1, 1⟩ wallExample = { wallExample with gameOver := true } :=
  step_wall_collision ⟨1, 1⟩ wallExample rfl (by decide)

/-- C6: Once the terminal flag is set, any number of repeated `step()`
calls changes no field of the game state. -/
theorem step_terminal_noop (s : GameState) (hgo : s.gameOver = true) :
    (∀ nf, stepGame nf s = s) ∧ ∀ nfs : List Position, stepMany nfs s = s := by
  have h1 : ∀ nf, stepGame nf s = s := by
    intro nf
    simp [stepGame, hgo]
  refine ⟨h1, ?_⟩
  intro nfs
  induction nfs with
  | nil => rfl
  | cons a l ih =>
      show stepMany l (stepGame a s) = s
      rw [h1 a]
      exact ih

/-- Witness for C6 on a concrete terminal state: one step and a run of
three steps are both no-ops. -/
theorem step_terminal_noop_witness :
    stepGame ⟨1, 1⟩ terminalExample = terminalExample ∧
    stepMany [⟨1, 1⟩, ⟨2, 2⟩, ⟨3, 3⟩] terminalExample = terminalExample :=
  ⟨(step_terminal_noop terminalExample rfl).1 ⟨1, 1⟩,
   (step_terminal_noop terminalExample rfl).2 [⟨1, 1⟩, ⟨2, 2⟩, ⟨3, 3⟩]⟩

/-- C9: `reset()` always produces the fixed initial configuration — a
single-segment snake at `(10,10)`, both directions RIGHT, the freshly
generated food, score 0, terminal flag false, tick interval
`INITIAL_SPEED = 150` — and, food aside, nothing in the result depends on
the prior state. -/
theorem resetGame_fixed_initial (nf : Position) (s t : GameState) :
    resetGame nf s =
      { snake := [⟨10, 10⟩], food := nf, direction := .RIGHT,
        nextDirection := .RIGHT, gameOver := false, score := 0,
        speed := INITIAL_SPEED } ∧
    resetGame nf s = resetGame nf t :=
  ⟨rfl, rfl⟩

/-- C2: In a non-terminal state whose candidate new head is inside the
grid, not on the pre-move body, and equal to the food position, one
`step()` prepends the new head without dropping a segment (length grows by
exactly 1), adds exactly 10 to the score, lowers the tick interval by 5
floored at 50 (exactly 5 whenever the interval was ≥ 55), and respawns the
food at the freshly generated position, all in the same call. -/
theorem step_eat_food (nf : Position) (s : GameState)
    (hgo : s.gameOver = false) (hin : inGrid (newHead s))
    (hself : newHead s ∉ s.snake) (hfood : newHead s = s.food) :
    stepGame nf s =
      { s with snake := newHead s :: s.snake
               food := nf
               score := s.score + 10
               speed := max (s.speed - 5) 50
               direction := s.nextDirection } ∧
    (stepGame nf s).snake.length = s.snake.length + 1 ∧
    (55 ≤ s.speed → (stepGame nf s).speed = s.speed - 5) ∧
    (s.speed < 55 → (stepGame nf s).speed = 50) ∧
    50 ≤ (stepGame nf s).speed := by
  have hout : ¬ outsideGrid (newHead s) := (not_outsideGrid_iff _).mpr hin
  have hrec : stepGame nf s =
      { s with snake := newHead s :: s.snake
               food := nf
               score := s.score + 10
               speed := max (s.speed - 5) 50
               direction := s.nextDirection } := by
    simp only [stepGame, hgo, Bool.false_eq_true, if_false]
    rw [if_neg hout, if_neg hself, if_pos hfood]
  refine ⟨hrec, ?_, ?_, ?_, ?_⟩
  · rw [hrec]
    simp
  · intro h55
    rw [hrec]
    show max (s.speed - 5) 50 = s.speed - 5
    omega
  · intro h55
    rw [hrec]
    show max (s.speed - 5) 50 = 50
    omega
  · rw [hrec]
    show 50 ≤ max (s.speed - 5) 50
    omega

/-- Witness for C2: the spec's food-eaten scenario (head `(4,5)`, food
`(5,5)`, moving RIGHT, score 10 → 20, interval 145 → 140). -/
theorem step_eat_food_witness :
    stepGame ⟨7, 7⟩ eatExample =
      { eatExample with snake := newHead eatExample :: eatExample.snake
                        food := ⟨7, 7⟩
                        score := eatExample.score + 10
                        speed := max (eatExample.speed - 5) 50
                        direction := eatExample.nextDirection } ∧
    (stepGame ⟨7, 7⟩ eatExample).snake.length = 2 ∧
    (stepGame ⟨7, 7⟩ eatExample).speed = 140 :=
  ⟨(step_eat_food ⟨7, 7⟩ eatExample rfl (by decide) (by decide) (by decide)).1,
   (step_eat_food ⟨7, 7⟩ eatExample rfl (by decide) (by decide) (by decide)).2.1,
   (step_eat_food ⟨7, 7⟩ eatExample rfl (by decide) (by decide) (by decide)).2.2.1
     (by decide)⟩

/-- C4: In a non-terminal state whose candidate new head is inside the
grid, `step()` declares self-collision (terminal flag set, state otherwise
unchanged) exactly when the new head equals some segment of the full
pre-move body; in particular a new head equal to the current tail segment
is a collision. -/
theorem step_self_collision (nf : Position) (s : GameState)
    (hgo : s.gameOver = false) (hin : inGrid (newHead s)) :
    ((stepGame nf s).gameOver = true ↔ newHead s ∈ s.snake) ∧
    (newHead s ∈ s.snake → stepGame nf s = { s with gameOver := true }) ∧
    (∀ hne : s.snake ≠ [], newHead s = s.snake.getLast hne →
      stepGame nf s = { s with gameOver := true }) := by
  have hout : ¬ outsideGrid (newHead s) := (not_outsideGrid_iff _).mpr hin
  have hcoll : newHead s ∈ s.snake → stepGame nf s = { s with gameOver := true } := by
    intro hm
    simp only [stepGame, hgo, Bool.false_eq_true, if_false]
    rw [if_neg hout, if_pos hm]
  have hno : newHead s ∉ s.snake → (stepGame nf s).gameOver = false := by
    intro hm
    simp only [stepGame, hgo, Bool.false_eq_true, if_false]
    rw [if_neg hout, if_neg hm]
    split
    · rfl
    · rfl
  refine ⟨⟨?_, fun hm => by rw [hcoll hm]⟩, hcoll, ?_⟩
  · intro hgot
    by_contra hm
    rw [hno hm] at hgot
    simp at hgot
  · intro hne hlast
    refine hcoll ?_
    rw [hlast]
    exact List.getLast_mem hne

/-- Witness for C4: the spec's self-collision scenario — the length-4
snake whose head moves RIGHT onto `(6,5)`, a body segment. -/
theorem step_self_collision_witness :
    stepGame ⟨1, 1⟩ selfExample = { selfExample with gameOver := true } :=
  (step_self_collision ⟨1, 1⟩ selfExample rfl (by decide)).2.1 (by decide)

/-- Counterexample to C3 as stated: in the bent two-segment snake
`[(5,5),(5,6)]` moving RIGHT (non-terminal, new head `(6,5)` in grid, off
the body, not on food), the post-step snake is `[(6,5),(5,5)]`, but moving
every segment one cell RIGHT would give `[(6,5),(6,6)]` — the tail segment
follows its predecessor instead of translating in the committed
direction. -/
theorem step_translate_counterexample :
    bentExample.gameOver = false ∧
    inGrid (newHead bentExample) ∧
    newHead bentExample ∉ bentExample.snake ∧
    newHead bentExample ≠ bentExample.food ∧
    (stepGame ⟨9, 9⟩ bentExample).snake = [⟨6, 5⟩, ⟨5, 5⟩] ∧
    (stepGame ⟨9, 9⟩ bentExample).snake ≠
      bentExample.snake.map (offsetHead bentExample.nextDirection) := by
  decide

/-- C3 (amended): a non-eating `step()` leaves the length unchanged and
produces the new head (the old head moved one cell in the committed
direction) prepended to the old body with its last segment dropped — the
head moves in the committed direction and each other segment moves to the
previous position of its predecessor; food, score and tick interval are
untouched. -/
theorem step_no_food_move (nf : Position) (s : GameState)
    (hgo : s.gameOver = false) (hin : inGrid (newHead s))
    (hself : newHead s ∉ s.snake) (hfood : newHead s ≠ s.food)
    (hne : s.snake ≠ []) :
    stepGame nf s =
      { s with snake := newHead s :: s.snake.dropLast
               direction := s.nextDirection } ∧
    (stepGame nf s).snake.length = s.snake.length ∧
    (stepGame nf s).snake.headI = offsetHead s.nextDirection s.snake.headI ∧
    (stepGame nf s).food = s.food ∧
    (stepGame nf s).score = s.score ∧
    (stepGame nf s).speed = s.speed := by
  have hout : ¬ outsideGrid (newHead s) := (not_outsideGrid_iff _).mpr hin
  have hlen : 1 ≤ s.snake.length := List.length_pos.mpr hne
  have hrec : stepGame nf s =
      { s with snake := (newHead s :: s.snake).dropLast
               direction := s.nextDirection } := by
    simp only [stepGame, hgo, Bool.false_eq_true, if_false]
    rw [if_neg hout, if_neg hself, if_neg hfood]
  rw [List.dropLast_cons_of_ne_nil hne] at hrec
  refine ⟨hrec, ?_, ?_, ?_, ?_, ?_⟩
  · rw [hrec]
    show (newHead s :: s.snake.dropLast).length = s.snake.length
    simp only [List.length_cons, List.length_dropLast]
    omega
  · rw [hrec]
    rfl
  · rw [hrec]
  · rw [hrec]
  · rw [hrec]

/-- Witness for the amended C3 on the bent snake: the head advances RIGHT
to `(6,5)` and the tail takes the head's old cell `(5,5)`. -/
theorem step_no_food_move_witness :
    stepGame ⟨9, 9⟩ bentExample =
      { bentExample with snake := [⟨6, 5⟩, ⟨5, 5⟩], direction := .RIGHT } :=
  (step_no_food_move ⟨9, 9⟩ bentExample rfl (by decide) (by decide)
    (by decide) (by decide)).1

/-- Counterexample to C7 as stated: with committed direction RIGHT but
pending direction UP (set by an earlier accepted request), a LEFT request
is rejected as claimed, yet the next `step()` moves the head UP to
`(10,9)`, not in the committed direction RIGHT (which would give
`(11,10)`). -/
theorem request_reversal_counterexample :
    pendingUpExample.direction = .RIGHT ∧
    requestDirection .LEFT pendingUpExample = pendingUpExample ∧
    (stepGame ⟨9, 9⟩ (requestDirection .LEFT pendingUpExample)).snake.headI =
      offsetHead .UP pendingUpExample.snake.headI ∧
    offsetHead .UP pendingUpExample.snake.headI ≠
      offsetHead .RIGHT pendingUpExample.snake.headI ∧
    (stepGame ⟨9, 9⟩ (requestDirection .LEFT pendingUpExample)).direction = .UP := by
  decide

/-- C7 (amended): `request_direction(r)` overwrites the pending direction
iff `r` is not the opposite of the committed direction; a rejected request
is silently ignored with no state change; a `step()` after a rejected
reversal behaves exactly as if the request had never happened, so it moves
in the previously pending direction — in particular, when the pending
direction equals the committed one it still moves in the committed
direction. -/
theorem request_direction_policy (nf : Position) (s : GameState) (r : Direction) :
    (r ≠ s.direction.opposite →
      requestDirection r s = { s with nextDirection := r }) ∧
    (r = s.direction.opposite → requestDirection r s = s) ∧
    stepGame nf (requestDirection s.direction.opposite s) = stepGame nf s ∧
    (s.nextDirection = s.direction → s.gameOver = false → s.snake ≠ [] →
      inGrid (newHead s) → newHead s ∉ s.snake →
      (stepGame nf (requestDirection s.direction.opposite s)).snake.headI =
        offsetHead s.direction s.snake.headI ∧
      (stepGame nf (requestDirection s.direction.opposite s)).direction =
        s.direction) := by
  have hrej : requestDirection s.direction.opposite s = s := by
    cases hd : s.direction <;>
      simp [requestDirection, Direction.opposite, hd]
  refine ⟨?_, ?_, ?_, ?_⟩
  · intro hr
    cases r <;> cases hd : s.direction <;>
      simp [requestDirection, Direction.opposite, hd] at hr ⊢
  · intro hr
    rw [hr]
    exact hrej
  · rw [hrej]
  · intro hpend hgo hne hin hself
    rw [hrej]
    have hout : ¬ outsideGrid (newHead s) := (not_outsideGrid_iff _).mpr hin
    simp only [stepGame, hgo, Bool.false_eq_true, if_false]
    rw [if_neg hout, if_neg hself]
    by_cases hfood : newHead s = s.food
    · rw [if_pos hfood]
      constructor
      · show (newHead s :: s.snake).headI = offsetHead s.direction s.snake.headI
        rw [← hpend]
        rfl
      · exact hpend
    · rw [if_neg hfood]
      constructor
      · show ((newHead s :: s.snake).dropLast).headI =
          offsetHead s.direction s.snake.headI
        rw [List.dropLast_cons_of_ne_nil hne, ← hpend]
        rfl
      · exact hpend

/-- Witness for the amended C7 at the initial state: UP is accepted, LEFT
is rejected, and the step after the rejected LEFT still moves RIGHT to
`(11,10)`. -/
theorem request_direction_policy_witness :
    requestDirection .UP initialState = { initialState with nextDirection := .UP } ∧
    requestDirection .LEFT initialState = initialState ∧
    stepGame ⟨9, 9⟩ (requestDirection .LEFT initialState) =
      stepGame ⟨9, 9⟩ initialState ∧
    (stepGame ⟨9, 9⟩ (requestDirection .LEFT initialState)).snake.headI =
      ⟨11, 10⟩ :=
  ⟨(request_direction_policy ⟨9, 9⟩ initialState .UP).1 (by decide),
   (request_direction_policy ⟨9, 9⟩ initialState .LEFT).2.1 (by decide),
   (request_direction_policy ⟨9, 9⟩ initialState .LEFT).2.2.1,
   ((request_direction_policy ⟨9, 9⟩ initialState .LEFT).2.2.2
      rfl rfl (by decide) (by decide) (by decide)).1⟩

/-- Counterexample to C8 as stated: the source represents the unset
baseline as `lastUpdateTime = 0` and its "unset" test is JavaScript
falsiness, so a frame at `t = 0` leaves the baseline unset.  With tick
interval 150 and frames at `t = 0, 100, 160`, no step is taken at any
frame (the baseline is only established at `t = 100`, and `160 − 100 <
150`), and the final baseline is 100, not 160 — the claim predicated one
step at `t = 160`. -/
theorem scheduler_t0_counterexample :
    runFrames ⟨9, 9⟩ [0, 100, 160] initialState 0 =
      (initialState, 100, [false, false, false]) ∧
    (runFrames ⟨9, 9⟩ [0, 100, 160] initialState 0).2.2 ≠
      [false, false, true] ∧
    (runFrames ⟨9, 9⟩ [0, 100, 160] initialState 0).2.1 ≠ 160 := by
  decide

/-- C8 (amended): on a non-terminal state with positive tick interval, a
frame signal at timestamp `T` with the baseline unset (`lastUpdateTime =
0`) takes no step and stores `T` as the baseline — with the caveat that a
stored `T = 0` is indistinguishable from unset, because 0 is the unset
sentinel; with the baseline set, a frame takes no step when `T − baseline
< tick interval` and takes exactly one step, resetting the baseline to
`T`, when `T − baseline ≥ tick interval` (at most one step per frame, no
catch-up).  Concretely, with interval 150 and frames at `t = 1, 101, 161`
the claimed pattern holds: no step at `t = 1` (baseline 1) or `t = 101`,
exactly one step at `t = 161` with the baseline reset to 161. -/
theorem scheduler_frame_rule (nf : Position) (s : GameState) (lt T : Int)
    (hgo : s.gameOver = false) (hsp : 0 < s.speed) :
    (lt = 0 → frame nf T s lt = (s, T, false)) ∧
    (lt ≠ 0 → T - lt < (s.speed : Int) → frame nf T s lt = (s, lt, false)) ∧
    (lt ≠ 0 → (s.speed : Int) ≤ T - lt →
      frame nf T s lt = (stepGame nf s, T, true)) ∧
    runFrames nf [1, 101, 161] initialState 0 =
      (stepGame nf initialState, 161, [false, false, true]) := by
  refine ⟨?_, ?_, ?_, ?_⟩
  · intro h0
    subst h0
    simp only [frame, hgo, Bool.false_eq_true, if_false, if_true, sub_self]
    rw [if_pos (show (0 : Int) < (s.speed : Int) by exact_mod_cast hsp)]
  · intro hlt helapsed
    simp only [frame, hgo, Bool.false_eq_true, if_false]
    rw [if_neg hlt, if_pos helapsed]
  · intro hlt helapsed
    simp only [frame, hgo, Bool.false_eq_true, if_false]
    rw [if_neg hlt, if_neg (not_lt.mpr helapsed)]
  · rfl

/-- Witness for the amended C8: from the initial state, a frame at `t =
42` with unset baseline records it without stepping; with baseline 5, a
frame at `t = 120` is skipped and a frame at `t = 200` steps once. -/
theorem scheduler_frame_rule_witness :
    frame ⟨9, 9⟩ 42 initialState 0 = (initialState, 42, false) ∧
    frame ⟨9, 9⟩ 120 initialState 5 = (initialState, 5, false) ∧
    frame ⟨9, 9⟩ 200 initialState 5 = (stepGame ⟨9, 9⟩ initialState, 200, true) :=
  ⟨(scheduler_frame_rule ⟨9, 9⟩ initialState 0 42 rfl (by decide)).1 rfl,
   (scheduler_frame_rule ⟨9, 9⟩ initialState 5 120 rfl (by decide)).2.1
     (by decide) (by decide),
   (scheduler_frame_rule ⟨9, 9⟩ initialState 5 200 rfl (by decide)).2.2.1
     (by decide) (by decide)⟩

end TechSnake
